import Mathlib

/-!
Verification development for the AmaPlayer comment / events services
(`src/services/api/commentService.ts`: `CommentService`, `EventsService`).

The Firestore-backed services are shallowly embedded as pure functions over
an explicit store state.  Instants are whole minutes on a single timeline;
a calendar day is `minutesPerDay` consecutive minutes, so the day of an
instant `t` is `t / minutesPerDay` (this models `Date.toDateString`
equality as equality of day indices).  Remote-call failures are injected
through explicit `Bool` parameters at each Firestore call site, mirroring
the `try`/`catch` structure of the TypeScript.
-/

namespace AmaPlayer

/-- Minutes in a calendar day. -/
def minutesPerDay : Nat := 1440

/-- Event status, `EventStatus` in `types/models/event`. -/
inductive EventStatus where
  | upcoming
  | live
  | completed
deriving DecidableEq, Repr

/-- The time-relevant fields of an `Event` as read by `getEventStatus`:
`date` is the calendar-day index of the event (the instant
`new Date(event.date)` is midnight of that day, `date * minutesPerDay`);
`startTime` is the parsed `"HH:MM"` string (`none` models an absent or
empty string, which is falsy in `if (event.startTime)`); `durationMin`
is `event.duration` (hours, possibly fractional) expressed in whole
minutes (`none` models an absent field; the value `0` is falsy in
`if (event.duration)` and also falls to the default). -/
structure EventTime where
  date : Nat
  startTime : Option (Nat × Nat)
  durationMin : Option Nat
deriving DecidableEq, Repr

/-- The instant `new Date(event.date)`: midnight of the event's day. -/
def eventDateInstant (e : EventTime) : Nat := e.date * minutesPerDay

/-- The instant `eventStartDate`: midnight of the event's day, with
`setHours(hours, minutes, 0, 0)` applied when `startTime` is present
(JavaScript `setHours` normalises overflowing fields, which matches
plain addition of minutes). -/
def eventStartInstant (e : EventTime) : Nat :=
  match e.startTime with
  | some (h, m) => e.date * minutesPerDay + h * 60 + m
  | none => e.date * minutesPerDay

/-- The instant `eventEndDate`: start plus the event's duration, where a
missing (or zero, hence falsy) duration defaults to 8 hours when the
event is dated today and 2 hours otherwise. -/
def eventEndInstant (e : EventTime) (now : Nat) : Nat :=
  let isSameDay : Bool := e.date = now / minutesPerDay
  let start := eventStartInstant e
  let defaultEnd := start + (if isSameDay then 8 else 2) * 60
  match e.durationMin with
  | some d => if d = 0 then defaultEnd else start + d
  | none => defaultEnd

/-- `EventsService.getEventStatus`, with the wall clock `now` passed
explicitly (the source reads `new Date()`; the two reads `now` and
`todayDate` are modelled as the same instant). -/
def getEventStatus (e : EventTime) (now : Nat) : EventStatus :=
  let isSameDay : Bool := e.date = now / minutesPerDay
  let start := eventStartInstant e
  let endT := eventEndInstant e now
  if eventDateInstant e > now then .upcoming
  else if isSameDay then
    if now > endT then .completed else .live
  else if start ≤ now ∧ now ≤ endT then .live
  else .completed

/-! ### Comment store (`CommentService`)

Documents live in association lists keyed by document id.  Lookup finds
the first binding; ids created by `addDoc` are fresh, so bindings are
unique in every state the service itself produces. -/

/-- Content types comments can attach to (`ContentType`). -/
inductive ContentType where
  | post
  | story
  | moment
deriving DecidableEq, Repr

/-- Caller-supplied fields of a new comment (`CommentData`). -/
structure CommentData where
  text : String
  userId : String
  userDisplayName : String
  userPhotoURL : Option String
deriving DecidableEq, Repr

/-- A comment document as stored in the `comments` collection
(`Comment` minus the id, which is the association-list key).  The source
reads `likes` and `likesCount` through `|| []` / `|| 0`, mapping a
missing field to the empty list / zero; the model keeps both fields
always present, with `likesCount : Nat` since every write the service
performs is clamped at zero by `Math.max`. -/
structure StoredComment where
  text : String
  userId : String
  userDisplayName : String
  userPhotoURL : Option String
  contentId : String
  contentType : ContentType
  timestamp : String
  likes : List String
  likesCount : Nat
  edited : Bool
  editedAt : Option String
deriving DecidableEq, Repr

/-- The slice of a parent content document (post/story/moment) the
service touches: the denormalized `commentsCount` field, `none` when the
field is absent.  It is `Int`-valued because `x || 0` preserves any
present nonzero value, negative ones included. -/
structure ContentDoc where
  commentsCount : Option Int
deriving DecidableEq, Repr

/-- The remote document store visible to `CommentService`. -/
structure Store where
  comments : List (String × StoredComment)
  posts : List (String × ContentDoc)
  stories : List (String × ContentDoc)
  moments : List (String × ContentDoc)
deriving DecidableEq, Repr

/-- Look up the document with the given id (`getDoc`). -/
def lookupKey : List (String × α) → String → Option α
  | [], _ => none
  | (k, v) :: rest, key => if k = key then some v else lookupKey rest key

/-- Replace the document at an existing id (`updateDoc`); a missing id
leaves the list unchanged. -/
def setKey : List (String × α) → String → α → List (String × α)
  | [], _, _ => []
  | (k, v) :: rest, key, nv =>
      if k = key then (key, nv) :: rest else (k, v) :: setKey rest key nv

/-- Create a document under a fresh id (`addDoc`). -/
def insertKey (l : List (String × α)) (k : String) (v : α) :
    List (String × α) :=
  l ++ [(k, v)]

/-- Delete the document with the given id (`deleteDoc`). -/
def removeKey : List (String × α) → String → List (String × α)
  | [], _ => []
  | (k, v) :: rest, key =>
      if k = key then removeKey rest key else (k, v) :: removeKey rest key

/-- The collection holding a content type's documents (the `switch` in
`updateCommentCount` selecting `posts` / `stories` / `moments`). -/
def Store.contentColl (s : Store) : ContentType → List (String × ContentDoc)
  | .post => s.posts
  | .story => s.stories
  | .moment => s.moments

/-- Write back a content collection. -/
def Store.setContentColl (s : Store) (ct : ContentType)
    (l : List (String × ContentDoc)) : Store :=
  match ct with
  | .post => { s with posts := l }
  | .story => { s with stories := l }
  | .moment => { s with moments := l }

/-- Service-level error taxonomy: `notFound` for a missing document,
`permissionDenied` for a failed ownership check, `remote` for a
remote-I/O failure surfaced by the underlying client. -/
inductive SvcError where
  | notFound
  | permissionDenied
  | remote
deriving DecidableEq, Repr

/-- `CommentService.updateCommentCount`.  `counterFails` injects a
failure of the `getDoc` or `updateDoc` inside this helper; its
`try`/`catch` swallows the error, so the store is simply unchanged and
nothing is surfaced.  When the parent document is missing no write
happens; otherwise `commentsCount` becomes
`Math.max(0, (commentsCount || 0) + delta)`. -/
def updateCommentCount (counterFails : Bool) (s : Store)
    (contentId : String) (contentType : ContentType) (delta : Int) : Store :=
  if counterFails then s
  else
    match lookupKey (s.contentColl contentType) contentId with
    | some d =>
        let currentCount := d.commentsCount.getD 0
        let newCount := max 0 (currentCount + delta)
        s.setContentColl contentType
          (setKey (s.contentColl contentType) contentId
            { commentsCount := some newCount })
    | none => s

/-- The comment object `addComment` builds before writing it: supplied
data plus the content reference, the current timestamp, an empty likes
array, a zero counter and a cleared edited flag. -/
def newComment (commentData : CommentData) (contentId : String)
    (contentType : ContentType) (nowTs : String) : StoredComment :=
  { text := commentData.text, userId := commentData.userId,
    userDisplayName := commentData.userDisplayName,
    userPhotoURL := commentData.userPhotoURL,
    contentId := contentId, contentType := contentType,
    timestamp := nowTs, likes := [], likesCount := 0,
    edited := false, editedAt := none }

/-- `CommentService.addComment`.  `newId` is the fresh id minted by
`addDoc` and `nowTs` the serialized current time.  `addFails` injects a
failure of the primary `addDoc`, which the `catch` rethrows as an
error.  Returns the id/comment pair the source resolves with. -/
def addComment (addFails counterFails : Bool) (s : Store) (newId : String)
    (contentId : String) (contentType : ContentType)
    (commentData : CommentData) (nowTs : String) :
    Except SvcError (String × StoredComment) × Store :=
  let comment := newComment commentData contentId contentType nowTs
  if addFails then (.error .remote, s)
  else
    let s1 : Store := { s with comments := insertKey s.comments newId comment }
    let s2 := updateCommentCount counterFails s1 contentId contentType 1
    (.ok (newId, comment), s2)

/-- `CommentService.deleteComment`.  Reads the comment (`getFails`
injects a failing `getDoc`, rethrown by the `catch`), errors on a
missing document or an ownership mismatch before any write, then
deletes the comment (`deleteFails` injects a failing `deleteDoc`) and
runs the best-effort counter decrement. -/
def deleteComment (getFails deleteFails counterFails : Bool) (s : Store)
    (commentId contentId : String) (contentType : ContentType)
    (userId : String) : Except SvcError Unit × Store :=
  if getFails then (.error .remote, s)
  else
    match lookupKey s.comments commentId with
    | none => (.error .notFound, s)
    | some c =>
        if c.userId ≠ userId then (.error .permissionDenied, s)
        else if deleteFails then (.error .remote, s)
        else
          let s1 : Store := { s with comments := removeKey s.comments commentId }
          let s2 := updateCommentCount counterFails s1 contentId contentType (-1)
          (.ok (), s2)

/-- The character set `String.prototype.trim` strips: ECMAScript
WhiteSpace (TAB, VT, FF, SP, NBSP, ZWNBSP and the Unicode
space-separator category U+1680, U+2000..U+200A, U+202F, U+205F,
U+3000) together with the LineTerminators (LF, CR, LS U+2028,
PS U+2029). -/
def isJsSpace (c : Char) : Bool :=
  c.val = 0x09 || c.val = 0x0A || c.val = 0x0B || c.val = 0x0C ||
  c.val = 0x0D || c.val = 0x20 || c.val = 0xA0 || c.val = 0x1680 ||
  (0x2000 ≤ c.val && c.val ≤ 0x200A) || c.val = 0x2028 ||
  c.val = 0x2029 || c.val = 0x202F || c.val = 0x205F ||
  c.val = 0x3000 || c.val = 0xFEFF

/-- Character-list body of `jsTrim`. -/
def trimChars (l : List Char) : List Char :=
  ((l.dropWhile isJsSpace).reverse.dropWhile isJsSpace).reverse

/-- JavaScript `String.prototype.trim`: leading and trailing
`isJsSpace` characters removed. -/
def jsTrim (s : String) : String :=
  String.mk (trimChars s.data)

/-- `CommentService.editComment`.  Same read/ownership sequence as
`deleteComment`; on success writes the trimmed text, sets `edited` and
stamps `editedAt` (`updateFails` injects a failing `updateDoc`,
rethrown). -/
def editComment (getFails updateFails : Bool) (s : Store)
    (commentId newText userId nowTs : String) :
    Except SvcError Unit × Store :=
  if getFails then (.error .remote, s)
  else
    match lookupKey s.comments commentId with
    | none => (.error .notFound, s)
    | some c =>
        if c.userId ≠ userId then (.error .permissionDenied, s)
        else if updateFails then (.error .remote, s)
        else
          (.ok (), { s with comments := (setKey s.comments commentId
            { c with text := jsTrim newText, edited := true,
                     editedAt := some nowTs }) })

/-- Firestore `arrayUnion` on a single element: append unless present. -/
def arrayUnion (l : List String) (x : String) : List String :=
  if x ∈ l then l else l ++ [x]

/-- Firestore `arrayRemove` on a single element: drop all occurrences. -/
def arrayRemove (l : List String) (x : String) : List String :=
  l.filter (fun y => y ≠ x)

/-- `CommentService.toggleCommentLike`.  Reads the comment, then either
unlikes (`arrayRemove`, counter `Math.max(0, likesCount - 1)`, which on
the `Nat` model is truncated subtraction) or likes (`arrayUnion`,
counter incremented); `updateFails` injects a failing `updateDoc` in
the branch taken, rethrown by the `catch`. -/
def toggleCommentLike (getFails updateFails : Bool) (s : Store)
    (commentId userId : String) : Except SvcError Unit × Store :=
  if getFails then (.error .remote, s)
  else
    match lookupKey s.comments commentId with
    | none => (.error .notFound, s)
    | some c =>
        let hasLiked := userId ∈ c.likes
        if hasLiked then
          if updateFails then (.error .remote, s)
          else
            (.ok (), { s with comments := (setKey s.comments commentId
              { c with likes := arrayRemove c.likes userId,
                       likesCount := c.likesCount - 1 }) })
        else
          if updateFails then (.error .remote, s)
          else
            (.ok (), { s with comments := (setKey s.comments commentId
              { c with likes := arrayUnion c.likes userId,
                       likesCount := c.likesCount + 1 }) })

/-- Insertion step of `sortWith`. -/
def insertSortedBy (le : α → α → Bool) (x : α) : List α → List α
  | [] => [x]
  | y :: ys => if le x y then x :: y :: ys else y :: insertSortedBy le x ys

/-- Stable insertion sort, modelling a Firestore `orderBy` clause. -/
def sortWith (le : α → α → Bool) : List α → List α
  | [] => []
  | x :: xs => insertSortedBy le x (sortWith le xs)

/-- Ascending order on serialized timestamps (`orderBy timestamp asc`;
ISO-8601 strings compare chronologically as strings). -/
def tsAsc (a b : String × StoredComment) : Bool :=
  a.2.timestamp ≤ b.2.timestamp

/-- `CommentService.getCommentsByContentId`: the matching comments in
timestamp order; `queryFails` injects a failing `getDocs`, rethrown. -/
def getCommentsByContentId (queryFails : Bool) (s : Store)
    (contentId : String) (contentType : ContentType) :
    Except SvcError (List (String × StoredComment)) :=
  if queryFails then .error .remote
  else .ok (sortWith tsAsc (s.comments.filter
    (fun p => p.2.contentId = contentId ∧ p.2.contentType = contentType)))

/-! ### Events store (`EventsService`)

Unlike the comment operations, every `EventsService` method wraps its
whole body in a `try`/`catch` whose handler returns a benign value
(`[]` or `null`), so these embeddings never produce an error result on
remote failure. -/

/-- One row of an event leaderboard (`LeaderboardEntry`). -/
structure LeaderboardEntry where
  rank : Nat
  userId : String
  userName : String
  userAvatar : Option String
  submissionId : String
  score : Nat
deriving DecidableEq, Repr

/-- An admin-supplied winner (`WinnerEntry`). -/
structure WinnerEntry where
  submissionId : String
  userId : String
  rank : Nat
deriving DecidableEq, Repr

/-- The slice of an event document `declareWinners` /
`updateLeaderboard` / the fetchers touch, with `title` standing for the
fields the operations spread through unchanged. -/
structure EventDoc where
  title : String
  isActive : Bool
  date : Nat
  leaderboard : Option (List LeaderboardEntry)
  eventState : Option String
  winnersAnnouncedAt : Option String
  announcedBy : Option String
  updatedAt : Option String
deriving DecidableEq, Repr

/-- The slice of an `eventSubmissions` document the services touch. -/
structure SubmissionDoc where
  userName : String
  userAvatar : Option String
  rank : Option Nat
deriving DecidableEq, Repr

/-- The remote document store visible to `EventsService`. -/
structure EventStore where
  events : List (String × EventDoc)
  submissions : List (String × SubmissionDoc)
deriving DecidableEq, Repr

/-- `EventsService.getActiveEvents`: the active events; a failing query
is caught and the function resolves normally with `[]`. -/
def getActiveEvents (queryFails : Bool) (s : EventStore) :
    Except SvcError (List (String × EventDoc)) :=
  if queryFails then .ok []
  else .ok (s.events.filter (fun p => p.2.isActive))

/-- Descending order on event dates
(`new Date(b.date) - new Date(a.date)`). -/
def dateDesc (a b : String × EventDoc) : Bool :=
  b.2.date ≤ a.2.date

/-- `EventsService.getAllEvents`: the active events sorted newest
first; a failing query is caught and the function resolves normally
with `[]`. -/
def getAllEvents (queryFails : Bool) (s : EventStore) :
    Except SvcError (List (String × EventDoc)) :=
  if queryFails then .ok []
  else .ok (sortWith dateDesc (s.events.filter (fun p => p.2.isActive)))

/-- Write a rank into a submission document, the effect of the staged
`batch.update(submissionRef, rank)`. -/
def setRank (subs : List (String × SubmissionDoc)) (sid : String)
    (r : Nat) : List (String × SubmissionDoc) :=
  subs.map (fun p => if p.1 = sid then (p.1, { p.2 with rank := some r }) else p)

/-- The ranked-entries list `declareWinners` assembles before staging
its batch: one entry per winner whose submission `getDoc` succeeded and
whose submission document exists (`subFetchFails` says which per-winner
`getDoc`s throw; each such failure is caught inside the loop and the
entry skipped, as is a missing document). -/
def buildLeaderboard (subFetchFails : String → Bool)
    (subs : List (String × SubmissionDoc)) (winners : List WinnerEntry) :
    List LeaderboardEntry :=
  winners.filterMap (fun w =>
    if subFetchFails w.submissionId then none
    else
      match lookupKey subs w.submissionId with
      | some sub =>
          some ({ rank := w.rank, userId := w.userId,
                  userName := sub.userName, userAvatar := sub.userAvatar,
                  submissionId := w.submissionId,
                  score := 0 } : LeaderboardEntry)
      | none => none)

/-- `EventsService.declareWinners`.  `getFails` injects a failure of the
initial event `getDoc`; `commitFails` injects a failure of
`batch.commit()`.  All staged batch updates are applied atomically by
the commit or not at all, and a staged `update` on a missing submission
document makes the whole commit fail.  Every failure path is caught by
the outer handler, which returns `null` (modelled `none`) with the
store untouched. -/
def declareWinners (getFails : Bool) (subFetchFails : String → Bool)
    (commitFails : Bool) (s : EventStore) (eventId : String)
    (winners : List WinnerEntry) (currentUserId : String)
    (nowTs : String) : Option (String × EventDoc) × EventStore :=
  if getFails then (none, s)
  else
    match lookupKey s.events eventId with
    | none => (none, s)
    | some event =>
        let leaderboard := buildLeaderboard subFetchFails s.submissions winners
        if commitFails ||
            winners.any (fun w => (lookupKey s.submissions w.submissionId).isNone) then
          (none, s)
        else
          let event2 : EventDoc := { event with
            leaderboard := some leaderboard,
            eventState := some "results_declared",
            winnersAnnouncedAt := some nowTs,
            announcedBy := some currentUserId }
          let s1 : EventStore := { s with events := setKey s.events eventId event2 }
          let s2 : EventStore := { s1 with submissions :=
            (winners.foldl (fun subs w => setRank subs w.submissionId w.rank)
              s1.submissions) }
          (some (eventId, event2), s2)

set_option linter.unusedVariables false in
/-- `EventsService.updateLeaderboard`: same batch pattern as
`declareWinners` but with a caller-supplied leaderboard; only
`leaderboard` and `updatedAt` change on the event, and each entry's rank
is staged onto its submission.  `currentUserId` is only logged by the
source, hence unused here. -/
def updateLeaderboard (getFails commitFails : Bool) (s : EventStore)
    (eventId : String) (leaderboard : List LeaderboardEntry)
    (currentUserId : String) (nowTs : String) :
    Option (String × EventDoc) × EventStore :=
  if getFails then (none, s)
  else
    match lookupKey s.events eventId with
    | none => (none, s)
    | some event =>
        if commitFails ||
            leaderboard.any (fun e => (lookupKey s.submissions e.submissionId).isNone) then
          (none, s)
        else
          let event2 : EventDoc := { event with
            leaderboard := some leaderboard, updatedAt := some nowTs }
          let s1 : EventStore := { s with events := setKey s.events eventId event2 }
          let s2 : EventStore := { s1 with submissions :=
            (leaderboard.foldl (fun subs e => setRank subs e.submissionId e.rank)
              s1.submissions) }
          (some (eventId, event2), s2)

/-! ### Iterated calls and concrete fixtures -/

/-- `n` back-to-back successful `toggleCommentLike` calls by one user on
one comment. -/
def toggleN (s : Store) (commentId userId : String) : Nat → Store
  | 0 => s
  | n + 1 => (toggleCommentLike false false (toggleN s commentId userId n)
      commentId userId).2

/-- A concrete stored comment used by the concrete instantiations. -/
def sampleComment : StoredComment :=
  { text := "hello", userId := "alice", userDisplayName := "Alice",
    userPhotoURL := none, contentId := "p1", contentType := .post,
    timestamp := "2024-01-01T00:00:00.000Z", likes := [], likesCount := 0,
    edited := false, editedAt := none }

/-- A concrete comment store: one comment on post `p1`, whose document
carries a zero comment count. -/
def sampleStore : Store :=
  { comments := [("c1", sampleComment)],
    posts := [("p1", { commentsCount := some 0 })],
    stories := [], moments := [] }

/-- A concrete event store: one active event and one submission. -/
def sampleEventStore : EventStore :=
  { events := [("e1",
      { title := "Cup", isActive := true, date := 1, leaderboard := none,
        eventState := none, winnersAnnouncedAt := none,
        announcedBy := none, updatedAt := none })],
    submissions := [("s1",
      { userName := "Bob", userAvatar := none, rank := none })] }

/-! ### Basic lemmas about the store primitives -/

theorem lookupKey_setKey_self {α : Type} (l : List (String × α))
    (k : String) (v0 v : α) (h : lookupKey l k = some v0) :
    lookupKey (setKey l k v) k = some v := by
  induction l with
  | nil => simp [lookupKey] at h
  | cons p rest ih =>
      by_cases hk : p.1 = k
      · simp [lookupKey, setKey, hk]
      · simp [lookupKey, setKey, hk] at h ⊢
        exact ih h

theorem contentColl_setContentColl (s : Store) (ct : ContentType)
    (l : List (String × ContentDoc)) :
    (s.setContentColl ct l).contentColl ct = l := by
  cases ct <;> rfl

theorem comments_setContentColl (s : Store) (ct : ContentType)
    (l : List (String × ContentDoc)) :
    (s.setContentColl ct l).comments = s.comments := by
  cases ct <;> rfl

theorem mem_arrayUnion_self (l : List String) (x : String) :
    x ∈ arrayUnion l x := by
  by_cases h : x ∈ l <;> simp [arrayUnion, h]

theorem not_mem_arrayRemove_self (l : List String) (x : String) :
    x ∉ arrayRemove l x := by
  simp [arrayRemove]

theorem trimChars_eq_nil {l : List Char}
    (h : ∀ c ∈ l, isJsSpace c) : trimChars l = [] := by
  have h1 : l.dropWhile isJsSpace = [] := by
    rw [List.dropWhile_eq_nil_iff]
    exact h
  simp [trimChars, h1]

/-! ### Claims -/

/-- C1 counterexample: `getEventStatus` does not return `upcoming`
whenever the start instant lies strictly after the current time, and
the live window is not half-open.  First conjunct: an event dated today
with `startTime` 23:00 is reported `live` at noon, although its start
instant (minute 1380) is strictly after the current time (minute 720).
Second conjunct: an event dated yesterday whose 2-hour window ends
exactly at the current instant (minute 1500, 01:00 today) is still
reported `live`, although the claimed half-open window `[start, end)`
excludes that instant. -/
theorem C1_event_status_counterexample :
    (720 < eventStartInstant ⟨0, some (23, 0), none⟩ ∧
      getEventStatus ⟨0, some (23, 0), none⟩ 720 = .live) ∧
    (eventEndInstant ⟨0, some (23, 0), some 120⟩ 1500 = 1500 ∧
      getEventStatus ⟨0, some (23, 0), some 120⟩ 1500 = .live) := by
  decide

/-- C1 (amended): `getEventStatus` returns `upcoming` iff the event's
date instant (midnight of its day, ignoring `startTime`) is strictly
after the current time; for an event dated the current day it returns
`completed` iff the current time is strictly past the end instant and
`live` otherwise (even before the start instant); for any other
not-future date it returns `live` iff the current time lies in the
closed window from start to end and `completed` otherwise, the end
being start plus the duration (defaulting to 8 hours same-day and
2 hours otherwise when the duration is absent or zero). -/
theorem C1_event_status_characterization (e : EventTime) (now : Nat) :
    (getEventStatus e now = .upcoming ↔ now < eventDateInstant e) ∧
    (getEventStatus e now = .live ↔ eventDateInstant e ≤ now ∧
      ((e.date = now / minutesPerDay ∧ now ≤ eventEndInstant e now) ∨
       (e.date ≠ now / minutesPerDay ∧ eventStartInstant e ≤ now ∧
         now ≤ eventEndInstant e now))) ∧
    (getEventStatus e now = .completed ↔ eventDateInstant e ≤ now ∧
      ((e.date = now / minutesPerDay ∧ eventEndInstant e now < now) ∨
       (e.date ≠ now / minutesPerDay ∧
         ¬(eventStartInstant e ≤ now ∧ now ≤ eventEndInstant e now)))) := by
  simp only [getEventStatus, decide_eq_true_eq]
  split_ifs with h1 h2 h3 h4 <;>
    simp only [eventDateInstant, minutesPerDay] at * <;>
    refine ⟨?_, ?_, ?_⟩ <;>
    simp <;>
    omega

/-- C8: with the current time at noon of day 1 (minute 2160), an event
dated day 1 starting 11:00 with a 2-hour duration is `live`; an event
dated day 2 is `upcoming`; an event dated day 0 starting 11:00 with a
2-hour duration is `completed`. -/
theorem C8_event_status_table :
    getEventStatus ⟨1, some (11, 0), some 120⟩ 2160 = .live ∧
    getEventStatus ⟨2, some (11, 0), some 120⟩ 2160 = .upcoming ∧
    getEventStatus ⟨0, some (11, 0), some 120⟩ 2160 = .completed := by
  decide

/-- C3: deleting a stored comment whose author differs from the
requester fails with PermissionDenied and leaves the store unchanged —
the comment document is not deleted and no content document's comment
count is touched — whatever the outcome of the later remote calls
would have been. -/
theorem C3_deleteComment_permissionDenied (df cf : Bool) (s : Store)
    (commentId contentId userId : String) (ct : ContentType)
    (c : StoredComment) (hlk : lookupKey s.comments commentId = some c)
    (hne : c.userId ≠ userId) :
    deleteComment false df cf s commentId contentId ct userId =
      (.error .permissionDenied, s) := by
  simp [deleteComment, hlk, hne]

/-- C3 witness: a concrete non-owner delete attempt on the sample
store fails with PermissionDenied and returns the store intact. -/
theorem C3_deleteComment_permissionDenied_witness :
    lookupKey sampleStore.comments "c1" = some sampleComment ∧
    sampleComment.userId ≠ "bob" ∧
    deleteComment false false false sampleStore "c1" "p1" .post "bob" =
      (.error .permissionDenied, sampleStore) :=
  ⟨by decide, by decide,
    C3_deleteComment_permissionDenied false false sampleStore "c1" "p1"
      "bob" .post sampleComment (by decide) (by decide)⟩

/-- C10: `updateCommentCount` performs no write when the parent content
document is missing, and otherwise stores exactly
`max 0 ((commentsCount or 0) + delta)`, which is never negative. -/
theorem C10_updateCommentCount_clamped (s : Store) (contentId : String)
    (ct : ContentType) (delta : Int) :
    (lookupKey (s.contentColl ct) contentId = none →
      updateCommentCount false s contentId ct delta = s) ∧
    (∀ d, lookupKey (s.contentColl ct) contentId = some d →
      lookupKey ((updateCommentCount false s contentId ct delta).contentColl ct)
          contentId =
        some { commentsCount := some (max 0 (d.commentsCount.getD 0 + delta)) } ∧
      0 ≤ max 0 (d.commentsCount.getD 0 + delta)) := by
  constructor
  · intro h
    simp [updateCommentCount, h]
  · intro d h
    refine ⟨?_, le_max_left 0 _⟩
    have h2 : updateCommentCount false s contentId ct delta =
        s.setContentColl ct (setKey (s.contentColl ct) contentId
          { commentsCount := some (max 0 (d.commentsCount.getD 0 + delta)) }) := by
      simp [updateCommentCount, h]
    rw [h2, contentColl_setContentColl]
    exact lookupKey_setKey_self _ _ d _ h

/-- C10 witness: decrementing the sample post whose stored count is
already 0 leaves the count at 0. -/
theorem C10_updateCommentCount_clamped_witness :
    lookupKey (sampleStore.contentColl .post) "p1" =
      some { commentsCount := some 0 } ∧
    lookupKey ((updateCommentCount false sampleStore "p1" .post (-1)).contentColl
        .post) "p1" = some { commentsCount := some 0 } :=
  ⟨by decide, by
    have h := ((C10_updateCommentCount_clamped sampleStore "p1" .post (-1)).2
      { commentsCount := some 0 } (by decide)).1
    simpa using h⟩

/-- C9: when the ownership check passes, `editComment` succeeds and
stores the trimmed text with `edited` set and `editedAt` stamped; a
text consisting only of whitespace is stored as the empty string. -/
theorem C9_editComment_trims (s : Store)
    (commentId newText userId nowTs : String) (c : StoredComment)
    (hlk : lookupKey s.comments commentId = some c)
    (hown : c.userId = userId) :
    (editComment false false s commentId newText userId nowTs).1 = .ok () ∧
    ∃ c2, lookupKey
        (editComment false false s commentId newText userId nowTs).2.comments
        commentId = some c2 ∧
      c2.text = jsTrim newText ∧ c2.edited = true ∧
      c2.editedAt = some nowTs ∧
      ((∀ ch ∈ newText.data, isJsSpace ch) → c2.text = "") := by
  have hredex : editComment false false s commentId newText userId nowTs =
      (.ok (), { s with comments := (setKey s.comments commentId
        { c with text := jsTrim newText, edited := true,
                 editedAt := some nowTs }) }) := by
    simp [editComment, hlk, hown]
  refine ⟨by rw [hredex],
    ⟨{ c with text := jsTrim newText, edited := true,
              editedAt := some nowTs }, ?_, rfl, rfl, rfl, ?_⟩⟩
  · rw [hredex]
    exact lookupKey_setKey_self _ _ c _ hlk
  · intro hall
    show jsTrim newText = ""
    unfold jsTrim
    rw [trimChars_eq_nil hall]

/-- C9 witness: the sample comment's owner edits it to a padded text;
the stored text is the trimmed form. -/
theorem C9_editComment_trims_witness :
    lookupKey sampleStore.comments "c1" = some sampleComment ∧
    sampleComment.userId = "alice" ∧
    ((editComment false false sampleStore "c1" " hi " "alice" "t2").1 =
        .ok () ∧
      ∃ c2, lookupKey
          (editComment false false sampleStore "c1" " hi " "alice"
            "t2").2.comments "c1" = some c2 ∧
        c2.text = jsTrim " hi " ∧ c2.edited = true ∧
        c2.editedAt = some "t2" ∧
        ((∀ ch ∈ (" hi " : String).data, isJsSpace ch) → c2.text = "")) :=
  ⟨by decide, rfl,
    C9_editComment_trims sampleStore "c1" " hi " "alice" "t2" sampleComment
      (by decide) rfl⟩

/-- C4: starting from a state where the user is not in the comment's
liking set, after `n` consecutive `toggleCommentLike` calls by that
user the comment still exists and the user is a member of its liking
set exactly when `n` is odd. -/
theorem C4_toggleCommentLike_parity (s : Store) (commentId userId : String)
    (c : StoredComment) (hlk : lookupKey s.comments commentId = some c)
    (h0 : userId ∉ c.likes) (n : Nat) :
    ∃ c2, lookupKey (toggleN s commentId userId n).comments commentId =
        some c2 ∧ (userId ∈ c2.likes ↔ n % 2 = 1) := by
  induction n with
  | zero =>
      refine ⟨c, hlk, ?_⟩
      simp [h0]
  | succ n ih =>
      obtain ⟨c2, hl2, hiff⟩ := ih
      simp only [toggleN]
      by_cases hmem : userId ∈ c2.likes
      · have hred : (toggleCommentLike false false (toggleN s commentId userId n)
            commentId userId).2 =
            { toggleN s commentId userId n with
              comments := (setKey (toggleN s commentId userId n).comments
                commentId
                { c2 with likes := arrayRemove c2.likes userId,
                          likesCount := c2.likesCount - 1 }) } := by
          simp [toggleCommentLike, hl2, hmem]
        rw [hred]
        refine ⟨_, lookupKey_setKey_self _ _ c2 _ hl2, ?_⟩
        have hodd : n % 2 = 1 := hiff.mp hmem
        simp only [not_mem_arrayRemove_self, false_iff, iff_false]
        omega
      · have hred : (toggleCommentLike false false (toggleN s commentId userId n)
            commentId userId).2 =
            { toggleN s commentId userId n with
              comments := (setKey (toggleN s commentId userId n).comments
                commentId
                { c2 with likes := arrayUnion c2.likes userId,
                          likesCount := c2.likesCount + 1 }) } := by
          simp [toggleCommentLike, hl2, hmem]
        rw [hred]
        refine ⟨_, lookupKey_setKey_self _ _ c2 _ hl2, ?_⟩
        have heven : ¬ n % 2 = 1 := fun h => hmem (hiff.mpr h)
        simp only [mem_arrayUnion_self, true_iff, iff_true]
        omega

/-- C4 witness: three consecutive toggles by a fresh user on the sample
comment leave the user in the liking set. -/
theorem C4_toggleCommentLike_parity_witness :
    lookupKey sampleStore.comments "c1" = some sampleComment ∧
    "bob" ∉ sampleComment.likes ∧
    (∃ c2, lookupKey (toggleN sampleStore "c1" "bob" 3).comments "c1" =
        some c2 ∧ ("bob" ∈ c2.likes ↔ 3 % 2 = 1)) :=
  ⟨by decide, by decide,
    C4_toggleCommentLike_parity sampleStore "c1" "bob" sampleComment
      (by decide) (by decide) 3⟩

/-- C6: a failing denormalized-counter write is swallowed: `addComment`
still resolves with the new comment and the store containing it, and an
owner's `deleteComment` still resolves successfully with the comment
removed; in both cases no error is surfaced and no content document
changes. -/
theorem C6_counter_failure_swallowed (s : Store)
    (newId contentId commentId contentId2 userId nowTs : String)
    (ct ct2 : ContentType) (d : CommentData) :
    addComment false true s newId contentId ct d nowTs =
      (.ok (newId, newComment d contentId ct nowTs),
       { s with comments := (insertKey s.comments newId
          (newComment d contentId ct nowTs)) }) ∧
    (∀ c, lookupKey s.comments commentId = some c → c.userId = userId →
      deleteComment false false true s commentId contentId2 ct2 userId =
        (.ok (), { s with comments := removeKey s.comments commentId })) := by
  constructor
  · simp [addComment, updateCommentCount]
  · intro c hlk hown
    simp [deleteComment, hlk, hown, updateCommentCount]

/-- C6 witness: on the sample store, an add and an owner delete with the
counter write failing both resolve successfully with only the comments
collection changed. -/
theorem C6_counter_failure_swallowed_witness :
    addComment false true sampleStore "c9" "p1" .post
        ⟨"yo", "bob", "Bob", none⟩ "t9" =
      (.ok ("c9", newComment ⟨"yo", "bob", "Bob", none⟩ "p1" .post "t9"),
       { sampleStore with comments := (insertKey sampleStore.comments "c9"
          (newComment ⟨"yo", "bob", "Bob", none⟩ "p1" .post "t9")) }) ∧
    lookupKey sampleStore.comments "c1" = some sampleComment ∧
    sampleComment.userId = "alice" ∧
    deleteComment false false true sampleStore "c1" "p1" .post "alice" =
      (.ok (), { sampleStore with
        comments := removeKey sampleStore.comments "c1" }) :=
  ⟨(C6_counter_failure_swallowed sampleStore "c9" "p1" "c1" "p1" "alice" "t9"
      .post .post ⟨"yo", "bob", "Bob", none⟩).1,
   by decide, rfl,
   (C6_counter_failure_swallowed sampleStore "c9" "p1" "c1" "p1" "alice" "t9"
      .post .post ⟨"yo", "bob", "Bob", none⟩).2 sampleComment (by decide) rfl⟩

/-- C7: `addComment` (whatever happens to the secondary counter write)
resolves with a comment whose liking set is empty, like count zero and
edited flag false, carrying the supplied content reference, text and
author fields. -/
theorem C7_addComment_fresh_comment (cf : Bool) (s : Store)
    (newId contentId nowTs : String) (ct : ContentType) (d : CommentData) :
    (addComment false cf s newId contentId ct d nowTs).1 =
      .ok (newId, newComment d contentId ct nowTs) ∧
    (newComment d contentId ct nowTs).likes = [] ∧
    (newComment d contentId ct nowTs).likesCount = 0 ∧
    (newComment d contentId ct nowTs).edited = false ∧
    (newComment d contentId ct nowTs).contentId = contentId ∧
    (newComment d contentId ct nowTs).contentType = ct ∧
    (newComment d contentId ct nowTs).text = d.text ∧
    (newComment d contentId ct nowTs).userId = d.userId ∧
    (newComment d contentId ct nowTs).userDisplayName = d.userDisplayName ∧
    (newComment d contentId ct nowTs).userPhotoURL = d.userPhotoURL := by
  refine ⟨?_, rfl, rfl, rfl, rfl, rfl, rfl, rfl, rfl, rfl⟩
  simp [addComment]

/-- C5 counterexample: a remote failure during the primary read of
`getAllEvents` does not propagate as an error — the catch converts it
into a normal empty-list return, discarding the active event the store
holds; likewise a commit failure in `declareWinners` resolves normally
with the null result instead of an error. -/
theorem C5_error_propagation_counterexample :
    getAllEvents true sampleEventStore = .ok [] ∧
    getAllEvents false sampleEventStore = .ok sampleEventStore.events ∧
    declareWinners false (fun _ => false) true sampleEventStore "e1"
      [⟨"s1", "bob", 1⟩] "admin" "t" = (none, sampleEventStore) := by
  refine ⟨rfl, rfl, by decide⟩

/-- C5 (amended): remote failures on the comment operations (add,
delete, edit, toggleLike, query) are rethrown to the caller with the
store unchanged, while the events-side operations (getActiveEvents,
getAllEvents, declareWinners, updateLeaderboard) catch the failure and
resolve normally with a benign value — an empty list or null — with
the store unchanged. -/
theorem C5_error_propagation_split (s : Store) (es : EventStore)
    (newId contentId commentId userId nowTs text eventId : String)
    (ct : ContentType) (d : CommentData) (df cf uf cmf : Bool)
    (sf : String → Bool) (ws : List WinnerEntry)
    (lb : List LeaderboardEntry) :
    addComment true cf s newId contentId ct d nowTs = (.error .remote, s) ∧
    deleteComment true df cf s commentId contentId ct userId =
      (.error .remote, s) ∧
    editComment true uf s commentId text userId nowTs =
      (.error .remote, s) ∧
    toggleCommentLike true uf s commentId userId = (.error .remote, s) ∧
    getCommentsByContentId true s contentId ct = .error .remote ∧
    getActiveEvents true es = .ok [] ∧
    getAllEvents true es = .ok [] ∧
    declareWinners true sf cmf es eventId ws userId nowTs = (none, es) ∧
    updateLeaderboard true cmf es eventId lb userId nowTs = (none, es) :=
  ⟨rfl, rfl, rfl, rfl, rfl, rfl, rfl, rfl, rfl⟩

/-- C2: `declareWinners` on a missing event resolves with the NotFound
signal (null) and performs no writes on any document; on an existing
event the outcome is all-or-nothing — either the store is returned
untouched, or the event carries its new leaderboard and results state
and every winner submission carries its rank, all applied together. -/
theorem C2_declareWinners_atomic (gf cmf : Bool) (sf : String → Bool)
    (s : EventStore) (eventId currentUserId nowTs : String)
    (winners : List WinnerEntry) :
    (lookupKey s.events eventId = none →
      declareWinners gf sf cmf s eventId winners currentUserId nowTs =
        (none, s)) ∧
    (∀ ev, lookupKey s.events eventId = some ev →
      (declareWinners gf sf cmf s eventId winners currentUserId nowTs).2 = s ∨
      declareWinners gf sf cmf s eventId winners currentUserId nowTs =
        (some (eventId,
          { ev with
            leaderboard := some (buildLeaderboard sf s.submissions winners),
            eventState := some "results_declared",
            winnersAnnouncedAt := some nowTs,
            announcedBy := some currentUserId }),
         { events := (setKey s.events eventId
            { ev with
              leaderboard := some (buildLeaderboard sf s.submissions winners),
              eventState := some "results_declared",
              winnersAnnouncedAt := some nowTs,
              announcedBy := some currentUserId }),
           submissions := (winners.foldl
            (fun subs w => setRank subs w.submissionId w.rank)
            s.submissions) })) := by
  constructor
  · intro h
    cases gf
    · simp [declareWinners, h]
    · rfl
  · intro ev h
    cases gf
    · by_cases hc : (cmf || winners.any
          fun w => (lookupKey s.submissions w.submissionId).isNone) = true
      · left
        simp [declareWinners, h, hc]
      · right
        rw [Bool.not_eq_true] at hc
        simp [declareWinners, h, hc]
    · left
      rfl

/-- C2 witness: a concrete call on a missing event id returns null with
the sample store untouched. -/
theorem C2_declareWinners_atomic_witness :
    lookupKey sampleEventStore.events "nope" = none ∧
    declareWinners false (fun _ => false) false sampleEventStore "nope" []
      "admin" "t" = (none, sampleEventStore) :=
  ⟨by decide,
    (C2_declareWinners_atomic false false (fun _ => false) sampleEventStore
      "nope" "admin" "t" []).1 (by decide)⟩

end AmaPlayer
